import Mathlib

/-!
Verification development for the PII leakage scanner pipeline:
line scanning (src/pii_detection/file_scanner.py), regex-based detection
(src/pii_detection/pii_detector.py), policy classification
(src/risk_scoring/pii_classification.py) and risk aggregation
(src/risk_scoring/pii_risk_scoring.py).

Modelling conventions:
- Python floats are modelled as exact rationals (ℚ); the values exercised
  here (halves, tenths) make the idealisation innocuous for the statements.
- Python dicts are modelled either as association lists in insertion order
  (where iteration order matters) or as explicit optional fields (where only
  a fixed set of keys is read).
- Python exceptions are modelled with Except and an error enumeration.
- Strings are ASCII in all inputs considered; the Python regex classes
  \d, \w, \s are modelled by their ASCII parts.
-/

deriving instance DecidableEq for Except

namespace PiiScanner

/-- Error kinds raised by the Python code: KeyError (missing dict key),
ValueError (failed conversion / validation), IndexError (bad list index). -/
inductive PyErr where
  | keyError
  | valueError
  | indexError
deriving DecidableEq, Repr

/-! ### Rational arithmetic helpers (risk_scoring/pii_risk_scoring.py) -/

/-- Embeds `_clamp01` from pii_risk_scoring.py: clamp a number into [0,1]. -/
def clamp01 (x : ℚ) : ℚ :=
  if x < 0 then 0
  else if 1 < x then 1
  else x

/-- Round to the nearest integer, ties to even: the rounding rule of
Python's built-in `round`.  (Rat.floor and mkRat are used instead of ⌊ ⌋
and division so that the definition evaluates by kernel reduction; the
bridging lemmas below restate it through the Mathlib API.) -/
def roundHalfEven (q : ℚ) : ℤ :=
  if q - Rat.floor q < mkRat 1 2 then Rat.floor q
  else if mkRat 1 2 < q - Rat.floor q then Rat.floor q + 1
  else if 2 ∣ Rat.floor q then Rat.floor q else Rat.floor q + 1

/-- Embeds Python `round(x, 2)`: round to two decimal places, ties to even. -/
def round2 (x : ℚ) : ℚ :=
  mkRat (roundHalfEven (x * 100)) 100

/-! ### A small backtracking regex engine

The three patterns in pii_detector.py use only: character classes, literal
characters, concatenation, alternation, greedy option, greedy counted
repetition of a character class, negative lookahead, and the zero-width
position assertions \b, (?<!\w), (?!\w).  The engine below enumerates the
possible end positions of a match starting at a given index, in exactly the
priority order of Python's backtracking engine (alternatives left to right,
greedy repetitions longest first), so the head of the list is the end of
the match Python's engine reports. -/

/-- Regex abstract syntax: the constructs used by EMAIL_RE, PHONE_RE and
AADHAAR_RE.  A repetition is always over a single character class, which is
true of every starred or counted subpattern in the three regexes. -/
inductive Rx where
  | eps
  | cls (p : Char → Bool)
  | cat (a b : Rx)
  | alt (a b : Rx)
  | opt (a : Rx)
  | repCls (p : Char → Bool) (lo : Nat) (hi : Option Nat)
  | nla (a : Rx)
  | posP (f : List Char → Nat → Bool)

/-- Concatenation of a list of regexes. -/
def rxSeq (l : List Rx) : Rx := l.foldr Rx.cat Rx.eps

/-- Length of the maximal run of characters satisfying p. -/
def runLenFrom (p : Char → Bool) : List Char → Nat
  | [] => 0
  | c :: cs => if p c then runLenFrom p cs + 1 else 0

/-- Candidate end positions i+n, i+n-1, ..., i+lo (greedy order). -/
def descRange (i lo n : Nat) : List Nat :=
  (List.range (n + 1 - lo)).map (fun k => i + n - k)

/-- All end positions of a match of r in s starting at i, in Python
backtracking priority order. -/
def ends : Rx → List Char → Nat → List Nat
  | .eps, _, i => [i]
  | .cls p, s, i =>
      match s.get? i with
      | some c => if p c then [i + 1] else []
      | none => []
  | .cat a b, s, i => (ends a s i).flatMap (ends b s)
  | .alt a b, s, i => ends a s i ++ ends b s i
  | .opt a, s, i => ends a s i ++ [i]
  | .repCls p lo hi, s, i =>
      let run := runLenFrom p (s.drop i)
      let n := match hi with
               | some h => min run h
               | none => run
      if lo ≤ n then descRange i lo n else []
  | .nla a, s, i => if (ends a s i).isEmpty then [i] else []
  | .posP f, s, i => if f s i then [i] else []

/-- End of the match starting at i that Python's engine reports, if any. -/
def firstEnd (r : Rx) (s : List Char) (i : Nat) : Option Nat :=
  (ends r s i).head?

/-- Scan of re.finditer: leftmost matches, continuing after each match
(all matches of the three patterns are non-empty, so the scan always
advances).  The fuel argument bounds the number of start positions tried. -/
def finditerAux (r : Rx) (s : List Char) : Nat → Nat → List (Nat × Nat)
  | 0, _ => []
  | fuel + 1, i =>
      if s.length < i then []
      else
        match firstEnd r s i with
        | some e => (i, e) :: finditerAux r s fuel (if i < e then e else i + 1)
        | none => finditerAux r s fuel (i + 1)

/-- Embeds re.finditer over a line: the list of (start, end) spans of the
non-overlapping matches, left to right. -/
def finditer (r : Rx) (s : List Char) : List (Nat × Nat) :=
  finditerAux r s (s.length + 1) 0

/-! ### ASCII character classes of the Python patterns -/

/-- ASCII part of the regex class \d. -/
def pyIsDigit (c : Char) : Bool := '0' ≤ c && c ≤ '9'

/-- ASCII letters, both cases (the email pattern is case-insensitive). -/
def pyIsAlpha (c : Char) : Bool := ('a' ≤ c && c ≤ 'z') || ('A' ≤ c && c ≤ 'Z')

/-- ASCII part of the regex class \w. -/
def pyIsWordChar (c : Char) : Bool := pyIsAlpha c || pyIsDigit c || c = '_'

/-- ASCII part of the regex class \s. -/
def pyIsSpace (c : Char) : Bool :=
  c = ' ' || c = '\t' || c = '\n' || c = '\x0b' || c = '\x0c' || c = '\r'

/-- Is the character at index i a word character (false past the end)? -/
def charIsWordAt (s : List Char) (i : Nat) : Bool :=
  match s.get? i with
  | some c => pyIsWordChar c
  | none => false

/-- Is the character just before index i a word character (false at 0)? -/
def wordCharBefore (s : List Char) (i : Nat) : Bool :=
  match i with
  | 0 => false
  | j + 1 => charIsWordAt s j

/-- The zero-width assertion \b at position i. -/
def atWordBoundary (s : List Char) (i : Nat) : Bool :=
  wordCharBefore s i != charIsWordAt s i

/-- The zero-width assertion (?<!\w) at position i. -/
def noWordBefore (s : List Char) (i : Nat) : Bool := !wordCharBefore s i

/-- The zero-width assertion (?!\w) at position i. -/
def noWordAfter (s : List Char) (i : Nat) : Bool := !charIsWordAt s i

/-! ### The three regexes of pii_detector.py -/

/-- Class [a-z0-9._%+\-] of the email local part (case-insensitive). -/
def emailLocalChar (c : Char) : Bool :=
  pyIsAlpha c || pyIsDigit c || c = '.' || c = '_' || c = '%' || c = '+' || c = '-'

/-- Class [a-z0-9.\-] of the email domain (case-insensitive). -/
def emailDomainChar (c : Char) : Bool :=
  pyIsAlpha c || pyIsDigit c || c = '.' || c = '-'

/-- Class [\s\-.()] of phone separators. -/
def phoneSepChar (c : Char) : Bool :=
  pyIsSpace c || c = '-' || c = '.' || c = '(' || c = ')'

/-- Class [\d\s\-.()] of the generic phone body. -/
def phoneBodyChar (c : Char) : Bool := pyIsDigit c || phoneSepChar c

/-- Class [6-9]. -/
def digit69 (c : Char) : Bool := '6' ≤ c && c ≤ '9'

/-- Class [2-9]. -/
def digit29 (c : Char) : Bool := '2' ≤ c && c ≤ '9'

/-- Class [\s\-] of Aadhaar group separators. -/
def aadhaarSepChar (c : Char) : Bool := pyIsSpace c || c = '-'

/-- Embeds EMAIL_RE:
\b [a-z0-9._%+\-]+ @ [a-z0-9.\-]+ \. [a-z]\x7b2,\x7d \b  (IGNORECASE). -/
def EMAIL_RE : Rx := rxSeq [
  .posP atWordBoundary,
  .repCls emailLocalChar 1 none,
  .cls (fun c => c = '@'),
  .repCls emailDomainChar 1 none,
  .cls (fun c => c = '.'),
  .repCls pyIsAlpha 2 none,
  .posP atWordBoundary ]

/-- Embeds PHONE_RE:
(?<!\w) ( (?:\+?\s*\d\x7b1,3\x7d[\s\-.()]*)? (?:0[\s\-.()]*)?
(?: [6-9]\d\x7b2\x7d[\s\-.()]*\d\x7b3\x7d[\s\-.()]*\d\x7b4\x7d | [6-9]\d\x7b9\x7d
| \d[\d\s\-.()]\x7b6,\x7d\d ) ) (?!\w).
The capture group spans the whole match (the flanking assertions are
zero-width), so group 1 of a match equals the matched span. -/
def PHONE_RE : Rx := rxSeq [
  .posP noWordBefore,
  .opt (rxSeq [
    .opt (.cls (fun c => c = '+')),
    .repCls pyIsSpace 0 none,
    .repCls pyIsDigit 1 (some 3),
    .repCls phoneSepChar 0 none]),
  .opt (rxSeq [
    .cls (fun c => c = '0'),
    .repCls phoneSepChar 0 none]),
  .alt
    (rxSeq [
      .cls digit69, .repCls pyIsDigit 2 (some 2),
      .repCls phoneSepChar 0 none,
      .repCls pyIsDigit 3 (some 3),
      .repCls phoneSepChar 0 none,
      .repCls pyIsDigit 4 (some 4)])
    (.alt
      (rxSeq [.cls digit69, .repCls pyIsDigit 9 (some 9)])
      (rxSeq [.cls pyIsDigit, .repCls phoneBodyChar 6 none, .cls pyIsDigit])),
  .posP noWordAfter ]

/-- Embeds AADHAAR_RE:
(?<!\w) (?!91\d\x7b10\x7d\b)
( [2-9]\d\x7b3\x7d [\s\-]? \d\x7b4\x7d [\s\-]? \d\x7b4\x7d ) (?!\w).
As with PHONE_RE, group 1 spans the whole match. -/
def AADHAAR_RE : Rx := rxSeq [
  .posP noWordBefore,
  .nla (rxSeq [
    .cls (fun c => c = '9'),
    .cls (fun c => c = '1'),
    .repCls pyIsDigit 10 (some 10),
    .posP atWordBoundary]),
  .cls digit29, .repCls pyIsDigit 3 (some 3),
  .opt (.cls aadhaarSepChar),
  .repCls pyIsDigit 4 (some 4),
  .opt (.cls aadhaarSepChar),
  .repCls pyIsDigit 4 (some 4),
  .posP noWordAfter ]

/-! ### Detector (_iter_matches_for_line and friends) -/

/-- The PiiType literal of pii_detector.py. -/
inductive PiiType where
  | email
  | phone
  | aadhaar
deriving DecidableEq, Repr

/-- Embeds the PiiMatch dataclass. -/
structure PiiMatch where
  piiType : PiiType
  value : String
  filename : String
  lineNumber : Int
deriving DecidableEq, Repr

/-- The substring of the span [i, e) of a line. -/
def spanValue (s : List Char) (i e : Nat) : String :=
  String.mk ((s.drop i).take (e - i))

/-- Embeds Python str.strip(): drop leading and trailing whitespace. -/
def pyStrip (s : List Char) : List Char :=
  ((s.dropWhile pyIsSpace).reverse.dropWhile pyIsSpace).reverse

/-- Embeds re.sub applied with pattern \D: keep only the digits. -/
def digitsOnly (s : List Char) : List Char := s.filter pyIsDigit

/-- The overlap test of the local helper overlaps_any: two half-open spans
overlap when each starts before the other ends. -/
def spanOverlaps (a b : Nat × Nat) : Bool := a.1 < b.2 && b.1 < a.2

/-- Does the span overlap any reserved span? -/
def overlapsAny (reserved : List (Nat × Nat)) (sp : Nat × Nat) : Bool :=
  reserved.any (fun r => spanOverlaps sp r)

/-- Spans of the email matches of a line. -/
def emailSpans (s : List Char) : List (Nat × Nat) := finditer EMAIL_RE s

/-- Spans of the Aadhaar-like matches of a line. -/
def aadhaarSpans (s : List Char) : List (Nat × Nat) := finditer AADHAAR_RE s

/-- The spans reserved before the phone loop runs: every email span and
every Aadhaar span (phone matches never reserve their span). -/
def reservedSpans (s : List Char) : List (Nat × Nat) :=
  emailSpans s ++ aadhaarSpans s

/-- The phone spans the detector keeps: phone matches that do not overlap
any reserved span and whose stripped value has at least 7 digits. -/
def phoneSpansKept (s : List Char) : List (Nat × Nat) :=
  (finditer PHONE_RE s).filter
    (fun sp => !overlapsAny (reservedSpans s) sp
      && 7 ≤ (digitsOnly (pyStrip ((s.drop sp.1).take (sp.2 - sp.1)))).length)

/-- Embeds _iter_matches_for_line: emails first, then Aadhaar-like matches,
then the phone matches that survive the overlap and digit-count filters.
The Aadhaar loop reserves its spans but, like the email loop, never checks
them against the spans already reserved. -/
def iter_matches_for_line (filename : String) (lineNumber : Int) (line : String) :
    List PiiMatch :=
  let s := line.data
  (emailSpans s).map
      (fun sp => PiiMatch.mk .email (spanValue s sp.1 sp.2) filename lineNumber)
    ++ (aadhaarSpans s).map
      (fun sp => PiiMatch.mk .aadhaar (spanValue s sp.1 sp.2) filename lineNumber)
    ++ (phoneSpansKept s).map
      (fun sp =>
        PiiMatch.mk .phone (String.mk (pyStrip ((s.drop sp.1).take (sp.2 - sp.1))))
          filename lineNumber)

/-! ### Classification (risk_scoring/pii_classification.py) -/

/-- Embeds the PiiDict TypedDict of pii_detector.py. -/
structure PiiDict where
  type : PiiType
  value : String
  file : String
  line_number : Int
deriving DecidableEq, Repr

/-- Embeds pii_match_to_dict. -/
def pii_match_to_dict (m : PiiMatch) : PiiDict :=
  ⟨m.piiType, m.value, m.filename, m.lineNumber⟩

/-- Embeds the PiiRiskProfile dataclass. -/
structure PiiRiskProfile where
  risk_level : String
  severity_weight : ℚ
  rationale : String
deriving DecidableEq, Repr

/-- Embeds the PiiClassificationDict TypedDict. -/
structure PiiClassificationDict extends PiiDict where
  risk_level : String
  severity_weight : ℚ
  rationale : String
deriving DecidableEq, Repr

/-- A policy mapping, modelled as a Python dict: an association list in
insertion order with pairwise distinct keys maintained by dictSet. -/
abbrev Policy := List (PiiType × PiiRiskProfile)

/-- Embeds dict lookup policy[t]: the value at the key, if present. -/
def dictLookup (d : Policy) (k : PiiType) : Option PiiRiskProfile :=
  (d.find? (fun kv => kv.1 == k)).map (fun kv => kv.2)

/-- Embeds dict assignment d[k] = v: replace in place if the key exists
(keeping its position), otherwise append. -/
def dictSet (d : Policy) (k : PiiType) (v : PiiRiskProfile) : Policy :=
  if d.any (fun kv => kv.1 == k) then
    d.map (fun kv => if kv.1 == k then (k, v) else kv)
  else d ++ [(k, v)]

/-- Embeds dict.update: assign every key of the second dict in order. -/
def dictUpdate (d overrides : Policy) : Policy :=
  overrides.foldl (fun acc kv => dictSet acc kv.1 kv.2) d

/-- Embeds DEFAULT_POLICY. -/
def DEFAULT_POLICY : Policy := [
  (.email, ⟨"medium", mkRat 1 2,
    "Direct identifier; commonly personal data but typically lower impact than government ID."⟩),
  (.phone, ⟨"high", mkRat 7 10,
    "Direct identifier often tied to accounts, OTP, and contactability."⟩),
  (.aadhaar, ⟨"critical", mkRat 19 20,
    "Government ID-like identifier with high sensitivity and regulatory implications."⟩)]

/-- Embeds _validate_profile: ValueError when the severity weight is out of
[0,1] or the stripped rationale is empty. -/
def validate_profile (p : PiiRiskProfile) : Except PyErr Unit :=
  if !(0 ≤ p.severity_weight && p.severity_weight ≤ 1) then .error .valueError
  else if (pyStrip p.rationale.data).isEmpty then .error .valueError
  else .ok ()

/-- Embeds validate_policy: validate every profile, first failure wins. -/
def validate_policy : Policy → Except PyErr Unit
  | [] => .ok ()
  | kv :: rest =>
    match validate_profile kv.2 with
    | .error e => .error e
    | .ok _ => validate_policy rest

/-- Embeds merge_policy: overlay overrides on base, validate, return. -/
def merge_policy (base overrides : Policy) : Except PyErr Policy :=
  let merged := dictUpdate base overrides
  match validate_policy merged with
  | .ok _ => .ok merged
  | .error e => .error e

/-- Embeds classify_pii_dict: look the type up in the policy (KeyError when
absent), re-validate the profile, and extend the item with its fields. -/
def classify_pii_dict (item : PiiDict) (policy : Policy := DEFAULT_POLICY) :
    Except PyErr PiiClassificationDict :=
  match dictLookup policy item.type with
  | none => .error .keyError
  | some profile =>
    match validate_profile profile with
    | .error e => .error e
    | .ok _ => .ok ⟨item, profile.risk_level, profile.severity_weight, profile.rationale⟩

/-- A sequential loop over a list in the Except monad, stopping at the
first raised error: the shape of the Python for-loops that build a result
list and may raise. -/
def mapExcept (f : α → Except PyErr β) : List α → Except PyErr (List β)
  | [] => .ok []
  | x :: xs =>
    match f x with
    | .error e => .error e
    | .ok y =>
      match mapExcept f xs with
      | .error e => .error e
      | .ok ys => .ok (y :: ys)

/-- Embeds classify_pii_dicts: validate the policy then classify each item. -/
def classify_pii_dicts (items : List PiiDict) (policy : Policy := DEFAULT_POLICY) :
    Except PyErr (List PiiClassificationDict) :=
  match validate_policy policy with
  | .error e => .error e
  | .ok _ => mapExcept (fun x => classify_pii_dict x policy) items

/-! ### Risk aggregation (risk_scoring/pii_risk_scoring.py) -/

/-- A Python value as stored under a dict key read by the scorer: either a
number (int/float, modelled as ℚ) or a string. -/
inductive PyVal where
  | num (q : ℚ)
  | str (s : String)
deriving DecidableEq, Repr

/-- Embeds the digit run value of a decimal literal. -/
def digitsToNat (l : List Char) : Nat :=
  l.foldl (fun n c => 10 * n + (c.toNat - '0'.toNat)) 0

/-- Decimal literals accepted by Python float(): optional sign, digits with
an optional fractional part, surrounding whitespace allowed.  (Python also
accepts exponents, inf and nan; those forms are not exercised here.) -/
def parseDecimal (s : String) : Option ℚ :=
  let cs := pyStrip s.data
  let signBody : ℚ × List Char :=
    match cs with
    | '-' :: r => (-1, r)
    | '+' :: r => (1, r)
    | _ => (1, cs)
  let ip := signBody.2.takeWhile pyIsDigit
  let rest := signBody.2.dropWhile pyIsDigit
  match rest with
  | [] => if ip.isEmpty then none else some (signBody.1 * (digitsToNat ip : ℚ))
  | '.' :: r =>
      let fp := r.takeWhile pyIsDigit
      if !(r.dropWhile pyIsDigit).isEmpty then none
      else if ip.isEmpty && fp.isEmpty then none
      else some (signBody.1 *
        ((digitsToNat ip : ℚ) + (digitsToNat fp : ℚ) * mkRat 1 (10 ^ fp.length)))
  | _ => none

/-- Embeds Python float(x) on the values the scorer reads: a number is
returned as is, a string is parsed as a decimal literal, and anything
unparsable raises ValueError. -/
def pyFloat : PyVal → Except PyErr ℚ
  | .num q => .ok q
  | .str s =>
      match parseDecimal s with
      | some q => .ok q
      | none => .error .valueError

/-- One input item of score_pii_findings, restricted to the two keys the
function reads.  A field none models the key being absent from the dict;
all other keys are carried through unchanged by the Python code and play
no part in the computation. -/
structure FindingInput where
  severity_weight : Option PyVal
  confidence : Option PyVal
deriving DecidableEq, Repr

/-- Embeds the per-item work of the loop in score_pii_findings: KeyError
when severity_weight is absent, then
contribution = clamp01(clamp01(float(sev)) * clamp01(float(conf))) with
confidence defaulting to default_confidence when the key is absent. -/
def itemContribution (default_confidence : ℚ) (it : FindingInput) :
    Except PyErr ℚ :=
  match it.severity_weight with
  | none => .error .keyError
  | some v =>
    match pyFloat v with
    | .error e => .error e
    | .ok sevRaw =>
      match (match it.confidence with
             | none => Except.ok default_confidence
             | some c => pyFloat c) with
      | .error e => .error e
      | .ok confRaw =>
          .ok (clamp01 (clamp01 sevRaw * clamp01 confRaw))

/-- Embeds DEFAULT_LABEL_THRESHOLDS in its insertion order. -/
def DEFAULT_LABEL_THRESHOLDS : List (String × ℚ) :=
  [("low", 0), ("medium", 20), ("high", 50), ("critical", 80)]

/-- The ascending comparison by threshold value used to sort a thresholds
mapping. -/
def byVal (a b : String × ℚ) : Prop := a.2 ≤ b.2

instance : DecidableRel byVal := fun a b => inferInstanceAs (Decidable (a.2 ≤ b.2))

instance : IsTotal (String × ℚ) byVal := ⟨fun a b => le_total a.2 b.2⟩

instance : IsTrans (String × ℚ) byVal := ⟨fun _ _ _ h1 h2 => le_trans h1 h2⟩

/-- Embeds Python sorted(thresholds.items(), key=value): a stable ascending
sort by threshold value (insertion sort is stable in the same way Python's
sort is: entries with equal values keep their insertion order). -/
def sortByVal (l : List (String × ℚ)) : List (String × ℚ) :=
  List.insertionSort byVal l

/-- Embeds risk_label_for_score: sort the thresholds ascending, start from
the first entry, and take the last entry whose threshold the score meets.
Indexing ordered[0] of an empty mapping raises IndexError, modelled none. -/
def risk_label_for_score (score : ℚ)
    (thresholds : List (String × ℚ) := DEFAULT_LABEL_THRESHOLDS) :
    Option String :=
  match sortByVal thresholds with
  | [] => none
  | (k0, v0) :: rest =>
      some (((k0, v0) :: rest).foldl
        (fun label kv => if kv.2 ≤ score then kv.1 else label) k0)

/-- Embeds the RiskScoreResult TypedDict.  The scored_items list is
modelled by the contribution values the loop adds to the items (the other
fields of each item are carried through unchanged); the constant
explanation string is omitted. -/
structure RiskScoreResult where
  score : ℚ
  label : String
  item_count : Nat
  contributions : List ℚ
deriving DecidableEq, Repr

/-- Embeds score_pii_findings: per-item contributions (KeyError or
ValueError raised at the first bad item), a running product of
(1 - contribution), combined risk 1 - clamp01(product), a score rounded to
two decimals, and a label from risk_label_for_score. -/
def score_pii_findings (items : List FindingInput)
    (default_confidence : ℚ := 1)
    (thresholds : List (String × ℚ) := DEFAULT_LABEL_THRESHOLDS) :
    Except PyErr RiskScoreResult :=
  match mapExcept (itemContribution default_confidence) items with
  | .error e => .error e
  | .ok contribs =>
    let product_not_risky := contribs.foldl (fun p c => p * (1 - c)) 1
    let combined_risk := 1 - clamp01 product_not_risky
    let score := round2 (combined_risk * 100)
    match risk_label_for_score score thresholds with
    | none => .error .indexError
    | some label => .ok ⟨score, label, contribs.length, contribs⟩

/-- Bridges classification to scoring as the pipeline does: a classified
item carries its severity_weight and no confidence key. -/
def classified_to_finding (c : PiiClassificationDict) : FindingInput :=
  ⟨some (.num c.severity_weight), none⟩

/-- Modelled from the spec: the tier ranking low < medium < high < critical
that the spec's tie-breaking sentence refers to.  It exists only to state
that sentence; the code never consults such a ranking. -/
def specTierRank (tier : String) : Nat :=
  if tier = "low" then 0
  else if tier = "medium" then 1
  else if tier = "high" then 2
  else if tier = "critical" then 3
  else 0

/-- Is this optional dict value absent or numeric (not a string)? -/
def isNumericOpt : Option PyVal → Bool
  | some (.str _) => false
  | _ => true

/-- Are both values the scorer reads from an item absent or numeric? -/
def numericItem (it : FindingInput) : Bool :=
  isNumericOpt it.severity_weight && isNumericOpt it.confidence

/-! ### Line scanner (pii_detection/file_scanner.py) -/

/-- Embeds the LineRecord dataclass. -/
structure LineRecord where
  filename : String
  line_number : Int
  line : String
deriving DecidableEq, Repr

/-- Embeds raw.rstrip applied with the two newline characters: remove every
trailing carriage return or line feed. -/
def rstripCRLF (s : String) : String :=
  String.mk ((s.data.reverse.dropWhile (fun c => c = '\r' || c = '\n')).reverse)

/-- Numbering loop shared by the scanners: consecutive line numbers from a
start, stripping trailing newlines unless keep_newline is set. -/
def numberLines (filename : String) (keep_newline : Bool) :
    Int → List String → List LineRecord
  | _, [] => []
  | n, raw :: rest =>
      ⟨filename, n, if keep_newline then raw else rstripCRLF raw⟩ ::
        numberLines filename keep_newline (n + 1) rest

/-- Embeds scan_text_stream over a stream modelled as the list of string
chunks its iteration yields: ValueError when start_line < 1, otherwise one
LineRecord per chunk with consecutive numbers. -/
def scan_text_stream (stream : List String) (filename : String := "<stream>")
    (start_line : Int := 1) (keep_newline : Bool := false) :
    Except PyErr (List LineRecord) :=
  if start_line < 1 then .error .valueError
  else .ok (numberLines filename keep_newline start_line stream)

/-- Embeds Python str.splitlines on the newline forms \n, \r\n and \r
(the forms arising from text decoded from byte content; splitlines also
breaks on rarer control characters, not used here).  An empty string
yields no lines; a trailing newline does not produce an extra line. -/
def pySplitlinesAux (keepends : Bool) (acc : List Char) :
    List Char → List String
  | [] => if acc.isEmpty then [] else [String.mk acc.reverse]
  | '\r' :: '\n' :: rest =>
      String.mk (acc.reverse ++ if keepends then ['\r', '\n'] else []) ::
        pySplitlinesAux keepends [] rest
  | '\r' :: rest =>
      String.mk (acc.reverse ++ if keepends then ['\r'] else []) ::
        pySplitlinesAux keepends [] rest
  | '\n' :: rest =>
      String.mk (acc.reverse ++ if keepends then ['\n'] else []) ::
        pySplitlinesAux keepends [] rest
  | c :: rest => pySplitlinesAux keepends (c :: acc) rest

/-- Python str.splitlines(keepends) restricted as described above. -/
def pySplitlines (keepends : Bool) (s : String) : List String :=
  pySplitlinesAux keepends [] s.data

/-- Embeds scan_bytes on the text obtained by decoding the byte buffer
(decoding with errors replace never fails, and empty bytes decode to the
empty string): ValueError when start_line < 1, otherwise number the
splitlines of the text, stripping newlines unless keep_newline is set. -/
def scan_bytes (text : String) (filename : String := "<bytes>")
    (start_line : Int := 1) (keep_newline : Bool := false) :
    Except PyErr (List LineRecord) :=
  if start_line < 1 then .error .valueError
  else .ok (numberLines filename keep_newline start_line
    (pySplitlines keep_newline text))

/-! ### Helper lemmas: arithmetic -/

theorem ratFloor_eq_floor (q : ℚ) : (Rat.floor q : ℤ) = ⌊q⌋ := by
  rw [Rat.floor_def]
  exact Rat.floor_def' q

theorem mkRat_cast_div (n : ℤ) (d : ℕ) : (mkRat n d : ℚ) = (n : ℚ) / (d : ℚ) := by
  rw [Rat.mkRat_eq_divInt, Rat.divInt_eq_div]
  norm_cast

theorem mkRat_one_two : (mkRat 1 2 : ℚ) = 1 / 2 := by
  rw [mkRat_cast_div]
  norm_num

theorem roundHalfEven_eq (q : ℚ) :
    roundHalfEven q =
      if q - ⌊q⌋ < 1 / 2 then ⌊q⌋
      else if 1 / 2 < q - ⌊q⌋ then ⌊q⌋ + 1
      else if 2 ∣ ⌊q⌋ then ⌊q⌋ else ⌊q⌋ + 1 := by
  rw [roundHalfEven, mkRat_one_two, ratFloor_eq_floor]

theorem roundHalfEven_ge_floor (q : ℚ) : ⌊q⌋ ≤ roundHalfEven q := by
  rw [roundHalfEven_eq]
  split_ifs <;> omega

theorem roundHalfEven_le_floor_add_one (q : ℚ) : roundHalfEven q ≤ ⌊q⌋ + 1 := by
  rw [roundHalfEven_eq]
  split_ifs <;> omega

theorem roundHalfEven_mono {x y : ℚ} (h : x ≤ y) :
    roundHalfEven x ≤ roundHalfEven y := by
  rcases lt_or_le ⌊x⌋ ⌊y⌋ with hf | hf
  · calc roundHalfEven x ≤ ⌊x⌋ + 1 := roundHalfEven_le_floor_add_one x
      _ ≤ ⌊y⌋ := by omega
      _ ≤ roundHalfEven y := roundHalfEven_ge_floor y
  · have hfe : ⌊x⌋ = ⌊y⌋ := le_antisymm (Int.floor_le_floor h) hf
    have hfr : x - (⌊x⌋ : ℚ) ≤ y - (⌊y⌋ : ℚ) := by
      rw [hfe]
      linarith
    rw [roundHalfEven_eq, roundHalfEven_eq, hfe]
    split_ifs <;> first
      | omega
      | (exfalso; linarith)

theorem roundHalfEven_intCast (n : ℤ) : roundHalfEven (n : ℚ) = n := by
  rw [roundHalfEven_eq]
  have hfl : ⌊(n : ℚ)⌋ = n := Int.floor_intCast n
  rw [hfl]
  norm_num

theorem round2_eq_div (x : ℚ) :
    round2 x = (roundHalfEven (x * 100) : ℚ) / 100 := by
  rw [round2, mkRat_cast_div]
  norm_num

theorem round2_mono {x y : ℚ} (h : x ≤ y) : round2 x ≤ round2 y := by
  rw [round2_eq_div, round2_eq_div]
  have hr : roundHalfEven (x * 100) ≤ roundHalfEven (y * 100) :=
    roundHalfEven_mono (by linarith)
  have hr2 : (roundHalfEven (x * 100) : ℚ) ≤ (roundHalfEven (y * 100) : ℚ) := by
    exact_mod_cast hr
  linarith

theorem round2_intCast_mul (n : ℤ) : round2 ((n : ℚ)) = (roundHalfEven (n * 100) : ℚ) / 100 :=
  round2_eq_div n

theorem round2_hundred : round2 (100 : ℚ) = 100 := by
  rw [round2_eq_div]
  have h : roundHalfEven ((100 : ℚ) * 100) = 10000 := by
    have : ((100 : ℚ) * 100) = ((10000 : ℤ) : ℚ) := by norm_num
    rw [this, roundHalfEven_intCast]
  rw [h]
  norm_num

theorem clamp01_nonneg (x : ℚ) : 0 ≤ clamp01 x := by
  rw [clamp01]
  split_ifs <;> linarith

theorem clamp01_le_one (x : ℚ) : clamp01 x ≤ 1 := by
  rw [clamp01]
  split_ifs <;> linarith

theorem clamp01_mono {x y : ℚ} (h : x ≤ y) : clamp01 x ≤ clamp01 y := by
  rw [clamp01, clamp01]
  split_ifs <;> linarith

theorem clamp01_of_mem {x : ℚ} (h0 : 0 ≤ x) (h1 : x ≤ 1) : clamp01 x = x := by
  rw [clamp01]
  split_ifs <;> linarith

/-! ### Helper lemmas: the aggregation loop -/

theorem prod_not_risky_bounds (cs : List ℚ) :
    ∀ a : ℚ, 0 ≤ a → (∀ c ∈ cs, 0 ≤ c ∧ c ≤ 1) →
      0 ≤ cs.foldl (fun p c => p * (1 - c)) a ∧
        cs.foldl (fun p c => p * (1 - c)) a ≤ a := by
  induction cs with
  | nil => intro a ha _; exact ⟨ha, le_refl a⟩
  | cons c tl ih =>
    intro a ha hb
    have hc := hb c (List.mem_cons_self c tl)
    have ha2 : 0 ≤ a * (1 - c) := by nlinarith [hc.1, hc.2]
    have ha3 : a * (1 - c) ≤ a := by nlinarith [hc.1, hc.2]
    have htl : ∀ x ∈ tl, 0 ≤ x ∧ x ≤ 1 := fun x hx => hb x (List.mem_cons_of_mem c hx)
    have := ih (a * (1 - c)) ha2 htl
    simp only [List.foldl_cons]
    exact ⟨this.1, le_trans this.2 ha3⟩

theorem mapExcept_ok_forall {α β : Type} {f : α → Except PyErr β} :
    ∀ {l : List α} {ys : List β}, mapExcept f l = .ok ys →
      ∀ y ∈ ys, ∃ x ∈ l, f x = .ok y := by
  intro l
  induction l with
  | nil =>
    intro ys h y hy
    simp only [mapExcept] at h
    cases h
    simp at hy
  | cons x tl ih =>
    intro ys h y hy
    simp only [mapExcept] at h
    cases hfx : f x with
    | error e => rw [hfx] at h; cases h
    | ok z =>
      rw [hfx] at h
      cases htl : mapExcept f tl with
      | error e => rw [htl] at h; cases h
      | ok zs =>
        rw [htl] at h
        cases h
        rcases List.mem_cons.mp hy with hy1 | hy2
        · exact ⟨x, List.mem_cons_self x tl, hy1 ▸ hfx⟩
        · rcases ih htl y hy2 with ⟨x2, hx2, hfx2⟩
          exact ⟨x2, List.mem_cons_of_mem x hx2, hfx2⟩

theorem mapExcept_append_single {α β : Type} {f : α → Except PyErr β} :
    ∀ {l : List α} {ys : List β}, mapExcept f l = .ok ys →
      ∀ {x : α} {y : β}, f x = .ok y →
        mapExcept f (l ++ [x]) = .ok (ys ++ [y]) := by
  intro l
  induction l with
  | nil =>
    intro ys h x y hxy
    simp only [mapExcept] at h
    cases h
    simp only [List.nil_append, mapExcept, hxy]
  | cons z tl ih =>
    intro ys h x y hxy
    simp only [mapExcept] at h
    cases hfz : f z with
    | error e => rw [hfz] at h; cases h
    | ok w =>
      rw [hfz] at h
      cases htl : mapExcept f tl with
      | error e => rw [htl] at h; cases h
      | ok ws =>
        rw [htl] at h
        cases h
        have hstep := ih htl hxy
        simp only [List.cons_append, mapExcept, hfz, List.append_eq, hstep]

theorem itemContribution_ok_clamped {d : ℚ} {it : FindingInput} {c : ℚ}
    (h : itemContribution d it = .ok c) : 0 ≤ c ∧ c ≤ 1 := by
  rcases it with ⟨sw, cf⟩
  cases sw with
  | none => simp only [itemContribution] at h; cases h
  | some v =>
    simp only [itemContribution] at h
    cases hv : pyFloat v with
    | error e => rw [hv] at h; cases h
    | ok sevRaw =>
      rw [hv] at h
      cases cf with
      | none =>
        simp only at h
        cases h
        exact ⟨clamp01_nonneg _, clamp01_le_one _⟩
      | some cv =>
        simp only at h
        cases hcv : pyFloat cv with
        | error e => rw [hcv] at h; cases h
        | ok confRaw =>
          rw [hcv] at h
          cases h
          exact ⟨clamp01_nonneg _, clamp01_le_one _⟩

/-! ### Helper lemmas: label selection -/

theorem sortByVal_perm (l : List (String × ℚ)) : List.Perm (sortByVal l) l :=
  List.perm_insertionSort byVal l

theorem sortByVal_sorted (l : List (String × ℚ)) :
    List.Sorted byVal (sortByVal l) :=
  List.sorted_insertionSort byVal l

theorem foldl_pick_of_none (score : ℚ) :
    ∀ (l : List (String × ℚ)) (init : String), (∀ kv ∈ l, ¬ kv.2 ≤ score) →
      l.foldl (fun label kv => if kv.2 ≤ score then kv.1 else label) init = init := by
  intro l
  induction l with
  | nil => intro init _; rfl
  | cons hd tl ih =>
    intro init hno
    have hhd : ¬ hd.2 ≤ score := hno hd (List.mem_cons_self hd tl)
    simp only [List.foldl_cons, if_neg hhd]
    exact ih init (fun kv hkv => hno kv (List.mem_cons_of_mem hd hkv))

theorem foldl_pick_of_met (score : ℚ) :
    ∀ (l : List (String × ℚ)), List.Sorted byVal l →
      ∀ (init : String) (kv0 : String × ℚ), kv0 ∈ l → kv0.2 ≤ score →
      ∃ kv ∈ l, kv.2 ≤ score ∧ (∀ kv2 ∈ l, kv2.2 ≤ score → kv2.2 ≤ kv.2) ∧
        l.foldl (fun label kv => if kv.2 ≤ score then kv.1 else label) init = kv.1 := by
  intro l
  induction l with
  | nil => intro _ init kv0 h0; cases h0
  | cons hd tl ih =>
    intro hsort init kv0 h0 hmet
    have hsc := List.sorted_cons.mp hsort
    by_cases hex : ∃ z ∈ tl, z.2 ≤ score
    · rcases hex with ⟨z, hz, hzm⟩
      rcases ih hsc.2 (if hd.2 ≤ score then hd.1 else init) z hz hzm with
        ⟨kv, hkv, hkvm, hmax, hfold⟩
      refine ⟨kv, List.mem_cons_of_mem hd hkv, hkvm, ?_, ?_⟩
      · intro kv2 hkv2 hkv2m
        rcases List.mem_cons.mp hkv2 with h1 | h2
        · subst h1
          exact le_trans (hsc.1 kv hkv) (le_refl kv.2)
        · exact hmax kv2 h2 hkv2m
      · simp only [List.foldl_cons]
        exact hfold
    · have hexn : ∀ kv ∈ tl, ¬ kv.2 ≤ score := fun kv hkv hm => hex ⟨kv, hkv, hm⟩
      have hhd : kv0 = hd := by
        rcases List.mem_cons.mp h0 with h1 | h2
        · exact h1
        · exact absurd hmet (hexn kv0 h2)
      subst hhd
      refine ⟨kv0, List.mem_cons_self kv0 tl, hmet, ?_, ?_⟩
      · intro kv2 hkv2 hkv2m
        rcases List.mem_cons.mp hkv2 with h1 | h2
        · subst h1; exact le_refl _
        · exact absurd hkv2m (hexn kv2 h2)
      · simp only [List.foldl_cons, if_pos hmet]
        exact foldl_pick_of_none score tl kv0.1 hexn

theorem risk_label_spec (score : ℚ) (ts : List (String × ℚ)) (hne : ts ≠ []) :
    ∃ kv ∈ ts, risk_label_for_score score ts = some kv.1 ∧
      ((∃ kv0 ∈ ts, kv0.2 ≤ score) →
        kv.2 ≤ score ∧ ∀ kv2 ∈ ts, kv2.2 ≤ score → kv2.2 ≤ kv.2) ∧
      ((∀ kv2 ∈ ts, ¬ kv2.2 ≤ score) → ∀ kv2 ∈ ts, kv.2 ≤ kv2.2) := by
  have hperm := sortByVal_perm ts
  have hsort := sortByVal_sorted ts
  cases hs : sortByVal ts with
  | nil =>
    rw [hs] at hperm
    exact absurd hperm.symm.eq_nil hne
  | cons hd tl =>
    rw [hs] at hperm hsort
    obtain ⟨k0, v0⟩ := hd
    by_cases hex : ∃ kv0 ∈ ts, kv0.2 ≤ score
    · rcases hex with ⟨kv0, hkv0, hkv0m⟩
      have hkv0s : kv0 ∈ (k0, v0) :: tl := hperm.mem_iff.mpr hkv0
      rcases foldl_pick_of_met score ((k0, v0) :: tl) hsort k0 kv0 hkv0s hkv0m with
        ⟨kv, hkv, hkvm, hmax, hfold⟩
      refine ⟨kv, hperm.mem_iff.mp hkv, ?_, ?_, ?_⟩
      · simp only [risk_label_for_score, hs, hfold]
      · intro _
        exact ⟨hkvm, fun kv2 hkv2 h2 => hmax kv2 (hperm.mem_iff.mpr hkv2) h2⟩
      · intro hno
        exact absurd hkv0m (hno kv0 hkv0)
    · have hexn : ∀ kv ∈ ts, ¬ kv.2 ≤ score := fun kv hkv hm => hex ⟨kv, hkv, hm⟩
      have hnos : ∀ kv ∈ (k0, v0) :: tl, ¬ kv.2 ≤ score := by
        intro kv hkv
        exact hexn kv (hperm.mem_iff.mp hkv)
      have hfold := foldl_pick_of_none score ((k0, v0) :: tl) k0 hnos
      refine ⟨(k0, v0), hperm.mem_iff.mp (List.mem_cons_self _ tl), ?_, ?_, ?_⟩
      · simp only [risk_label_for_score, hs, hfold]
      · intro hex2
        rcases hex2 with ⟨kv0, hkv0, hkv0m⟩
        exact absurd hkv0m (hexn kv0 hkv0)
      · intro _ kv2 hkv2
        rcases List.mem_cons.mp (hperm.mem_iff.mpr hkv2) with h1 | h2
        · rw [h1]
        · exact List.sorted_cons.mp hsort |>.1 kv2 h2

theorem risk_label_default_isSome (score : ℚ) :
    ∃ lab, risk_label_for_score score DEFAULT_LABEL_THRESHOLDS = some lab := by
  have hs : sortByVal DEFAULT_LABEL_THRESHOLDS = DEFAULT_LABEL_THRESHOLDS := by
    with_unfolding_all rfl
  simp only [risk_label_for_score, hs, DEFAULT_LABEL_THRESHOLDS]
  exact ⟨_, rfl⟩

/-! ### Helper lemmas: score_pii_findings in terms of its loop -/

theorem score_pii_findings_of_ok {items : List FindingInput} {d : ℚ}
    {ths : List (String × ℚ)} {cs : List ℚ} {lab : String}
    (hcs : mapExcept (itemContribution d) items = .ok cs)
    (hlab : risk_label_for_score
      (round2 ((1 - clamp01 (cs.foldl (fun p c => p * (1 - c)) 1)) * 100)) ths = some lab) :
    score_pii_findings items d ths =
      .ok ⟨round2 ((1 - clamp01 (cs.foldl (fun p c => p * (1 - c)) 1)) * 100),
        lab, cs.length, cs⟩ := by
  simp only [score_pii_findings, hcs, hlab]

theorem score_pii_findings_ok_elim {items : List FindingInput} {d : ℚ}
    {ths : List (String × ℚ)} {r : RiskScoreResult}
    (h : score_pii_findings items d ths = .ok r) :
    ∃ cs, mapExcept (itemContribution d) items = .ok cs ∧
      r.score = round2 ((1 - clamp01 (cs.foldl (fun p c => p * (1 - c)) 1)) * 100) := by
  cases hcs : mapExcept (itemContribution d) items with
  | error e =>
    simp only [score_pii_findings, hcs] at h
    cases h
  | ok cs =>
    simp only [score_pii_findings, hcs] at h
    cases hlab : risk_label_for_score
        (round2 ((1 - clamp01 (cs.foldl (fun p c => p * (1 - c)) 1)) * 100)) ths with
    | none => rw [hlab] at h; cases h
    | some lab =>
      rw [hlab] at h
      cases h
      exact ⟨cs, rfl, rfl⟩

/-! ### Helper lemmas: error behaviour of the scoring loop -/

theorem itemContribution_of_missing {d : ℚ} {it : FindingInput}
    (h : it.severity_weight = none) : itemContribution d it = .error .keyError := by
  rcases it with ⟨sw, cf⟩
  cases h
  rfl

theorem itemContribution_ok_of_numeric {d : ℚ} {it : FindingInput}
    (hn : numericItem it = true) (hsw : it.severity_weight ≠ none) :
    ∃ q, itemContribution d it = .ok q := by
  rcases it with ⟨sw, cf⟩
  cases sw with
  | none => exact absurd rfl hsw
  | some v =>
    cases v with
    | str s => simp [numericItem, isNumericOpt] at hn
    | num q =>
      cases cf with
      | none => exact ⟨_, rfl⟩
      | some cv =>
        cases cv with
        | str s => simp [numericItem, isNumericOpt] at hn
        | num q2 => exact ⟨_, rfl⟩

theorem mapExcept_keyError_iff (d : ℚ) :
    ∀ items : List FindingInput, (∀ it ∈ items, numericItem it = true) →
      (mapExcept (itemContribution d) items = .error .keyError ↔
        ∃ it ∈ items, it.severity_weight = none) := by
  intro items
  induction items with
  | nil =>
    intro _
    constructor
    · intro h
      simp only [mapExcept] at h
      cases h
    · rintro ⟨it, hit, _⟩
      cases hit
  | cons it tl ih =>
    intro hn
    have hnit := hn it (List.mem_cons_self it tl)
    have hntl : ∀ x ∈ tl, numericItem x = true :=
      fun x hx => hn x (List.mem_cons_of_mem it hx)
    cases hsw : it.severity_weight with
    | none =>
      have hmiss := itemContribution_of_missing (d := d) hsw
      constructor
      · intro _
        exact ⟨it, List.mem_cons_self it tl, hsw⟩
      · intro _
        simp only [mapExcept, hmiss]
    | some v =>
      rcases itemContribution_ok_of_numeric (d := d) hnit
          (by rw [hsw]; exact fun h => Option.noConfusion h) with ⟨q, hq⟩
      cases htl : mapExcept (itemContribution d) tl with
      | error e =>
        have hmap : mapExcept (itemContribution d) (it :: tl) = .error e := by
          simp only [mapExcept, hq, htl]
        rw [hmap]
        constructor
        · intro h
          have he : e = .keyError := by cases h; rfl
          subst he
          rcases (ih hntl).mp htl with ⟨x, hx, hxe⟩
          exact ⟨x, List.mem_cons_of_mem it hx, hxe⟩
        · rintro ⟨x, hx, hxe⟩
          rcases List.mem_cons.mp hx with h1 | h2
          · subst h1
            rw [hsw] at hxe
            cases hxe
          · have h3 := (ih hntl).mpr ⟨x, h2, hxe⟩
            rw [htl] at h3
            exact h3
      | ok ys =>
        have hmap : mapExcept (itemContribution d) (it :: tl) = .ok (q :: ys) := by
          simp only [mapExcept, hq, htl]
        rw [hmap]
        constructor
        · intro h
          cases h
        · rintro ⟨x, hx, hxe⟩
          rcases List.mem_cons.mp hx with h1 | h2
          · subst h1
            rw [hsw] at hxe
            cases hxe
          · have h3 := (ih hntl).mpr ⟨x, h2, hxe⟩
            rw [htl] at h3
            cases h3

/-! ### Claim theorems -/

/-- C1: on the line "Contact dummy.user@example.com or call 555-123-4567"
the detector yields exactly one email match (dummy.user@example.com) and one
phone match (555-123-4567), whose digit-only content is 5551234567;
classifying both under the default policy gives severities 1/2 and 7/10, and
scoring them with confidence defaulting to 1 gives combined risk
1 - (1 - 1/2)(1 - 7/10) = 17/20 = 0.85, score 85.0 and label "critical"
under the default thresholds. -/
theorem claim_C1 :
    iter_matches_for_line "scan.txt" 1
        "Contact dummy.user@example.com or call 555-123-4567" =
      [⟨.email, "dummy.user@example.com", "scan.txt", 1⟩,
       ⟨.phone, "555-123-4567", "scan.txt", 1⟩]
    ∧ digitsOnly "555-123-4567".data = "5551234567".data
    ∧ (classify_pii_dicts ((iter_matches_for_line "scan.txt" 1
          "Contact dummy.user@example.com or call 555-123-4567").map
            pii_match_to_dict)).map (fun cls => cls.map (fun c => c.severity_weight)) =
        .ok [mkRat 1 2, mkRat 7 10]
    ∧ (classify_pii_dicts ((iter_matches_for_line "scan.txt" 1
          "Contact dummy.user@example.com or call 555-123-4567").map
            pii_match_to_dict)).map
          (fun cls => score_pii_findings (cls.map classified_to_finding)) =
        .ok (.ok ⟨85, "critical", 2, [mkRat 1 2, mkRat 7 10]⟩)
    ∧ 1 - clamp01 ((1 - mkRat 1 2 * 1) * (1 - mkRat 7 10 * 1)) = mkRat 17 20
    ∧ round2 (mkRat 17 20 * 100) = 85 := by
  refine ⟨?_, ?_, ?_, ?_, ?_, ?_⟩ <;> with_unfolding_all rfl

/-- C2, counterexample: on the line "234512341234@example.com" the email
pass matches the whole line (span 0..24) and the Aadhaar pass still yields
its overlapping candidate (span 0..12), because only the phone loop checks
candidates against the reserved spans.  Character positions 0..11 therefore
contribute to two finding types, refuting the claim for the national-ID
family. -/
theorem claim_C2_counterexample :
    emailSpans "234512341234@example.com".data = [(0, 24)]
    ∧ aadhaarSpans "234512341234@example.com".data = [(0, 12)]
    ∧ spanOverlaps (0, 12) (0, 24) = true
    ∧ iter_matches_for_line "scan.txt" 1 "234512341234@example.com" =
        [⟨.email, "234512341234@example.com", "scan.txt", 1⟩,
         ⟨.aadhaar, "234512341234", "scan.txt", 1⟩] := by
  refine ⟨?_, ?_, ?_, ?_⟩ <;> decide

/-- C2, amended: only the phone family discards overlapping candidates: on
every line, every phone span the detector keeps overlaps neither an email
span nor an Aadhaar span (the reserved spans).  Aadhaar candidates are
yielded without any such check, as the counterexample shows. -/
theorem claim_C2_amended (s : List Char) (p r : Nat × Nat)
    (hp : p ∈ phoneSpansKept s) (hr : r ∈ reservedSpans s) :
    spanOverlaps p r = false := by
  simp only [phoneSpansKept] at hp
  have hmem := List.mem_filter.mp hp
  have hno : overlapsAny (reservedSpans s) p = false := by
    cases hov : overlapsAny (reservedSpans s) p
    · rfl
    · have h2 := hmem.2
      rw [hov] at h2
      simp at h2
  cases hb : spanOverlaps p r with
  | false => rfl
  | true =>
    have hany : (reservedSpans s).any (fun r2 => spanOverlaps p r2) = true :=
      List.any_eq_true.mpr ⟨r, hr, hb⟩
    have : overlapsAny (reservedSpans s) p = true := hany
    rw [hno] at this
    cases this

/-- Witness for C2 amended, at the scenario line of C1: the kept phone span
(39, 51) does not overlap the reserved email span (8, 30). -/
theorem claim_C2_amended_witness :
    ((39, 51) ∈ phoneSpansKept
        "Contact dummy.user@example.com or call 555-123-4567".data)
    ∧ ((8, 30) ∈ reservedSpans
        "Contact dummy.user@example.com or call 555-123-4567".data)
    ∧ spanOverlaps (39, 51) (8, 30) = false :=
  ⟨by decide, by decide,
   claim_C2_amended "Contact dummy.user@example.com or call 555-123-4567".data
     (39, 51) (8, 30) (by decide) (by decide)⟩

/-- C3: every score score_pii_findings returns is at most 100, and appending
one more finding with positive severity weight and positive confidence never
decreases the score. -/
theorem claim_C3 :
    (∀ (items : List FindingInput) (d : ℚ) (ths : List (String × ℚ))
        (r : RiskScoreResult),
        score_pii_findings items d ths = .ok r → r.score ≤ 100)
    ∧ (∀ (items : List FindingInput) (sev conf : ℚ) (r : RiskScoreResult),
        0 < sev → 0 < conf →
        score_pii_findings items = .ok r →
        ∃ r2 : RiskScoreResult,
          score_pii_findings (items ++ [⟨some (.num sev), some (.num conf)⟩]) =
              .ok r2
            ∧ r.score ≤ r2.score) := by
  constructor
  · intro items d ths r h
    rcases score_pii_findings_ok_elim h with ⟨cs, _, hscore⟩
    have hnn := clamp01_nonneg (cs.foldl (fun p c => p * (1 - c)) 1)
    have h1 : (1 - clamp01 (cs.foldl (fun p c => p * (1 - c)) 1)) * 100 ≤ 100 := by
      linarith
    calc r.score
        = round2 ((1 - clamp01 (cs.foldl (fun p c => p * (1 - c)) 1)) * 100) :=
          hscore
      _ ≤ round2 100 := round2_mono h1
      _ = 100 := round2_hundred
  · intro items sev conf r _ _ hr
    rcases score_pii_findings_ok_elim hr with ⟨cs, hcs, hscore⟩
    have hce : itemContribution 1 ⟨some (.num sev), some (.num conf)⟩ =
        .ok (clamp01 (clamp01 sev * clamp01 conf)) := rfl
    have hcs2 := mapExcept_append_single hcs hce
    have hbounds : ∀ c ∈ cs, 0 ≤ c ∧ c ≤ 1 := by
      intro c hc
      rcases mapExcept_ok_forall hcs c hc with ⟨x, _, hx⟩
      exact itemContribution_ok_clamped hx
    have hP := prod_not_risky_bounds cs 1 (by norm_num) hbounds
    have hceB : 0 ≤ clamp01 (clamp01 sev * clamp01 conf) ∧
        clamp01 (clamp01 sev * clamp01 conf) ≤ 1 :=
      ⟨clamp01_nonneg _, clamp01_le_one _⟩
    have hP2eq : (cs ++ [clamp01 (clamp01 sev * clamp01 conf)]).foldl
        (fun p c => p * (1 - c)) 1 =
        cs.foldl (fun p c => p * (1 - c)) 1 *
          (1 - clamp01 (clamp01 sev * clamp01 conf)) := by
      rw [List.foldl_append]
      rfl
    have hP2le : cs.foldl (fun p c => p * (1 - c)) 1 *
        (1 - clamp01 (clamp01 sev * clamp01 conf)) ≤
        cs.foldl (fun p c => p * (1 - c)) 1 := by
      nlinarith [hP.1, hceB.1]
    rcases risk_label_default_isSome
        (round2 ((1 - clamp01 ((cs ++ [clamp01 (clamp01 sev * clamp01 conf)]).foldl
          (fun p c => p * (1 - c)) 1)) * 100)) with ⟨lab2, hlab2⟩
    refine ⟨_, score_pii_findings_of_ok hcs2 hlab2, ?_⟩
    rw [hscore]
    have hcl := clamp01_mono (hP2eq ▸ hP2le)
    exact round2_mono (by linarith)

/-- Witness for C3: the empty list scores 0, and appending one finding with
severity 1/2 and confidence 1 yields a score at least 0. -/
theorem claim_C3_witness :
    (0 : ℚ) < mkRat 1 2 ∧ (0 : ℚ) < 1 ∧
    ∃ r2 : RiskScoreResult,
      score_pii_findings ([] ++ [⟨some (.num (mkRat 1 2)), some (.num 1)⟩]) =
          .ok r2
        ∧ (⟨0, "low", 0, []⟩ : RiskScoreResult).score ≤ r2.score :=
  ⟨by with_unfolding_all decide, by norm_num,
   claim_C3.2 [] (mkRat 1 2) 1 ⟨0, "low", 0, []⟩ (by with_unfolding_all decide)
     (by norm_num) (by with_unfolding_all rfl)⟩

/-- C4: scoring the empty list of findings returns score 0, label "low"
(the lowest-threshold default tier) and item count 0, the running product
over no findings being 1. -/
theorem claim_C4 :
    score_pii_findings [] = .ok ⟨0, "low", 0, []⟩
    ∧ ([] : List ℚ).foldl (fun p c => p * (1 - c)) 1 = 1 :=
  ⟨by with_unfolding_all rfl, rfl⟩

/-- C5, counterexample: with thresholds critical=50 listed before high=50
and score 60, both thresholds are met and equal, yet the code returns
"high", the lower-ranked tier in the spec's low < medium < high < critical
order, because ties are resolved by iteration order, not rank. -/
theorem claim_C5_counterexample :
    risk_label_for_score 60 [("critical", 50), ("high", 50)] = some "high"
    ∧ specTierRank "high" < specTierRank "critical"
    ∧ ((50 : ℚ) ≤ 60 ∧ (50 : ℚ) ≤ 60) := by
  refine ⟨?_, ?_, ?_⟩
  · with_unfolding_all rfl
  · decide
  · constructor <;> norm_num

/-- C5, amended: for every non-empty thresholds mapping,
risk_label_for_score returns the key of some entry; when at least one
threshold is met, that entry meets the score and carries the greatest
threshold among the met entries (ties go to the entry iterated last, not to
the spec's higher-ranked tier); when no threshold is met, the returned
entry has the least threshold of the mapping.  The empty mapping is
excluded: the code fails on it. -/
theorem claim_C5_amended (score : ℚ) (ts : List (String × ℚ)) (hne : ts ≠ []) :
    ∃ kv ∈ ts, risk_label_for_score score ts = some kv.1 ∧
      ((∃ kv0 ∈ ts, kv0.2 ≤ score) →
        kv.2 ≤ score ∧ ∀ kv2 ∈ ts, kv2.2 ≤ score → kv2.2 ≤ kv.2) ∧
      ((∀ kv2 ∈ ts, ¬ kv2.2 ≤ score) → ∀ kv2 ∈ ts, kv.2 ≤ kv2.2) :=
  risk_label_spec score ts hne

/-- Witness for C5 amended at a concrete mapping and score. -/
theorem claim_C5_amended_witness :
    ([("low", (0 : ℚ)), ("high", 50)] ≠ []) ∧
    ∃ kv ∈ [("low", (0 : ℚ)), ("high", 50)],
      risk_label_for_score 60 [("low", (0 : ℚ)), ("high", 50)] = some kv.1 ∧
      ((∃ kv0 ∈ [("low", (0 : ℚ)), ("high", 50)], kv0.2 ≤ 60) →
        kv.2 ≤ 60 ∧ ∀ kv2 ∈ [("low", (0 : ℚ)), ("high", 50)],
          kv2.2 ≤ 60 → kv2.2 ≤ kv.2) ∧
      ((∀ kv2 ∈ [("low", (0 : ℚ)), ("high", 50)], ¬ kv2.2 ≤ 60) →
        ∀ kv2 ∈ [("low", (0 : ℚ)), ("high", 50)], kv.2 ≤ kv2.2) :=
  ⟨List.cons_ne_nil _ _,
   claim_C5_amended 60 [("low", (0 : ℚ)), ("high", 50)] (List.cons_ne_nil _ _)⟩

/-- C6, counterexample: an item whose severity_weight is present but not
numeric ("not a number") is rejected with a float-conversion ValueError,
not coerced via clamping, and that error is not the missing-field KeyError. -/
theorem claim_C6_counterexample :
    (FindingInput.mk (some (.str "not a number")) none).severity_weight ≠ none
    ∧ score_pii_findings [⟨some (.str "not a number"), none⟩] =
        .error .valueError
    ∧ PyErr.valueError ≠ PyErr.keyError := by
  refine ⟨fun h => Option.noConfusion h, ?_, fun h => PyErr.noConfusion h⟩
  with_unfolding_all rfl

/-- C6, amended: when every present severity_weight/confidence value is
numeric, score_pii_findings raises the missing-field KeyError iff some item
lacks severity_weight; numeric values out of [0,1] are clamped before use
(the contribution is clamp01(clamp01 sev * clamp01 conf)) and such an item
is scored, not rejected.  Non-numeric values instead raise a conversion
ValueError, as the counterexample shows. -/
theorem claim_C6_amended :
    (∀ items : List FindingInput, (∀ it ∈ items, numericItem it = true) →
      (score_pii_findings items = .error .keyError ↔
        ∃ it ∈ items, it.severity_weight = none))
    ∧ (∀ s c : ℚ, itemContribution 1 ⟨some (.num s), some (.num c)⟩ =
        .ok (clamp01 (clamp01 s * clamp01 c)))
    ∧ (∀ s c : ℚ, ∃ r : RiskScoreResult,
        score_pii_findings [⟨some (.num s), some (.num c)⟩] = .ok r ∧
          r.score = round2 (clamp01 (clamp01 s * clamp01 c) * 100)) := by
  refine ⟨?_, fun s c => rfl, ?_⟩
  · intro items hn
    have hiff := mapExcept_keyError_iff 1 items hn
    constructor
    · intro h
      cases hm : mapExcept (itemContribution 1) items with
      | error e =>
        simp only [score_pii_findings, hm] at h
        have he : e = .keyError := by cases h; rfl
        exact hiff.mp (he ▸ hm)
      | ok cs =>
        rcases risk_label_default_isSome
            (round2 ((1 - clamp01 (cs.foldl (fun p c => p * (1 - c)) 1)) * 100))
          with ⟨lab, hlab⟩
        rw [score_pii_findings_of_ok hm hlab] at h
        cases h
    · intro hex
      have hm := hiff.mpr hex
      simp only [score_pii_findings, hm]
  · intro s c
    have hm : mapExcept (itemContribution 1) [⟨some (.num s), some (.num c)⟩] =
        .ok [clamp01 (clamp01 s * clamp01 c)] := rfl
    have hfold : ([clamp01 (clamp01 s * clamp01 c)] : List ℚ).foldl
        (fun p c => p * (1 - c)) 1 = 1 * (1 - clamp01 (clamp01 s * clamp01 c)) :=
      rfl
    have hc1 : 1 - clamp01 (([clamp01 (clamp01 s * clamp01 c)] : List ℚ).foldl
        (fun p c => p * (1 - c)) 1) = clamp01 (clamp01 s * clamp01 c) := by
      rw [hfold, one_mul, clamp01_of_mem (by linarith [clamp01_le_one (clamp01 s * clamp01 c)])
        (by linarith [clamp01_nonneg (clamp01 s * clamp01 c)])]
      ring
    rcases risk_label_default_isSome
        (round2 ((1 - clamp01 (([clamp01 (clamp01 s * clamp01 c)] : List ℚ).foldl
          (fun p c => p * (1 - c)) 1)) * 100)) with ⟨lab, hlab⟩
    refine ⟨_, score_pii_findings_of_ok hm hlab, ?_⟩
    show round2 ((1 - clamp01 (([clamp01 (clamp01 s * clamp01 c)] : List ℚ).foldl
      (fun p c => p * (1 - c)) 1)) * 100) = round2 (clamp01 (clamp01 s * clamp01 c) * 100)
    rw [hc1]

/-- Witness for C6 amended: a single item lacking severity_weight raises
KeyError, and out-of-range numeric severity 5 and confidence -3 are clamped
(contribution clamp01(1 * 0) = 0) and scored. -/
theorem claim_C6_amended_witness :
    score_pii_findings [⟨none, none⟩] = .error .keyError
    ∧ itemContribution 1 ⟨some (.num 5), some (.num (-3))⟩ =
        .ok (clamp01 (clamp01 5 * clamp01 (-3)))
    ∧ ∃ r : RiskScoreResult,
        score_pii_findings [⟨some (.num 5), some (.num (-3))⟩] = .ok r ∧
          r.score = round2 (clamp01 (clamp01 5 * clamp01 (-3)) * 100) :=
  ⟨(claim_C6_amended.1 [⟨none, none⟩] (by decide)).mpr
      ⟨⟨none, none⟩, List.mem_cons_self _ _, rfl⟩,
   claim_C6_amended.2.1 5 (-3),
   claim_C6_amended.2.2 5 (-3)⟩

/-- C7: the 12-digit line "912345678901" (91 followed by 10 digits) yields
no national-ID match (the exclusion guard rejects it) but does yield one
phone match covering the whole span, its 12 digits satisfying the 7-digit
minimum. -/
theorem claim_C7 :
    aadhaarSpans "912345678901".data = []
    ∧ finditer PHONE_RE "912345678901".data = [(0, 12)]
    ∧ (digitsOnly "912345678901".data).length = 12
    ∧ iter_matches_for_line "scan.txt" 1 "912345678901" =
        [⟨.phone, "912345678901", "scan.txt", 1⟩] := by
  refine ⟨?_, ?_, ?_, ?_⟩ <;> decide

/-- C8: overriding the email severity to 1/10 on top of the default policy
merges and validates successfully; classifying an email finding under the
merged policy reports severity 1/10, while phone and aadhaar keep their
default profiles. -/
theorem claim_C8 :
    ∃ merged : Policy,
      merge_policy DEFAULT_POLICY
          [(.email, ⟨"medium", mkRat 1 10, "Lowered for this deployment."⟩)] =
        .ok merged
      ∧ validate_policy merged = .ok ()
      ∧ (classify_pii_dict ⟨.email, "dummy.user@example.com", "scan.txt", 1⟩
          merged).map (fun c => c.severity_weight) = .ok (mkRat 1 10)
      ∧ dictLookup merged .phone = dictLookup DEFAULT_POLICY .phone
      ∧ dictLookup merged .aadhaar = dictLookup DEFAULT_POLICY .aadhaar := by
  refine ⟨[(.email, ⟨"medium", mkRat 1 10, "Lowered for this deployment."⟩),
    (.phone, ⟨"high", mkRat 7 10,
      "Direct identifier often tied to accounts, OTP, and contactability."⟩),
    (.aadhaar, ⟨"critical", mkRat 19 20,
      "Government ID-like identifier with high sensitivity and regulatory implications."⟩)],
    ?_, ?_, ?_, ?_, ?_⟩ <;> with_unfolding_all rfl

/-- C9: both scanners fail with the configuration ValueError whenever the
starting line number is below 1, and on empty input (empty stream, or bytes
decoding to the empty string) with a starting line number of at least 1 they
return the empty sequence of records rather than an error. -/
theorem claim_C9 :
    (∀ (stream : List String) (fname : String) (start : Int) (keep : Bool),
        start < 1 → scan_text_stream stream fname start keep = .error .valueError)
    ∧ (∀ (text fname : String) (start : Int) (keep : Bool),
        start < 1 → scan_bytes text fname start keep = .error .valueError)
    ∧ (∀ (fname : String) (start : Int) (keep : Bool),
        1 ≤ start → scan_text_stream [] fname start keep = .ok [])
    ∧ (∀ (fname : String) (start : Int) (keep : Bool),
        1 ≤ start → scan_bytes "" fname start keep = .ok []) := by
  refine ⟨?_, ?_, ?_, ?_⟩
  · intro stream fname start keep h
    simp only [scan_text_stream, if_pos h]
  · intro text fname start keep h
    simp only [scan_bytes, if_pos h]
  · intro fname start keep h
    simp only [scan_text_stream, if_neg (not_lt.mpr h)]
    rfl
  · intro fname start keep h
    simp only [scan_bytes, if_neg (not_lt.mpr h)]
    rfl

/-- Witness for C9 at concrete inputs: start 0 fails, and empty bytes with
start 1 give the empty record list. -/
theorem claim_C9_witness :
    ((0 : Int) < 1 ∧ scan_text_stream ["x"] "f" 0 false = .error .valueError)
    ∧ ((1 : Int) ≤ 1 ∧ scan_bytes "" "f" 1 false = .ok []) :=
  ⟨⟨by norm_num, claim_C9.1 ["x"] "f" 0 false (by norm_num)⟩,
   ⟨le_refl 1, claim_C9.2.2.2 "f" 1 false (le_refl 1)⟩⟩

/-- C10: risk_label_for_score is total exactly on non-empty thresholds
mappings: for a non-empty mapping it returns one of the mapping's keys, and
on the empty mapping the initial indexing of the sorted list fails
(modelled as none). -/
theorem claim_C10 (score : ℚ) (ts : List (String × ℚ)) :
    (ts ≠ [] → ∃ k, risk_label_for_score score ts = some k ∧
      k ∈ ts.map Prod.fst)
    ∧ risk_label_for_score score [] = none := by
  constructor
  · intro hne
    rcases risk_label_spec score ts hne with ⟨kv, hkv, hres, _, _⟩
    exact ⟨kv.1, hres, List.mem_map.mpr ⟨kv, hkv, rfl⟩⟩
  · rfl

/-- Witness for C10 at a concrete mapping. -/
theorem claim_C10_witness :
    ([("low", (0 : ℚ))] ≠ []) ∧
    ∃ k, risk_label_for_score 10 [("low", (0 : ℚ))] = some k ∧
      k ∈ [("low", (0 : ℚ))].map Prod.fst :=
  ⟨List.cons_ne_nil _ _, (claim_C10 10 [("low", (0 : ℚ))]).1 (List.cons_ne_nil _ _)⟩

end PiiScanner
